import Mathlib

/-!
Verification of the DP tensor-aggregator bundle factory
(`dp_tensor_aggregator_bundle.cc`).

The development shallowly embeds `DPTensorAggregatorBundleFactory::CreateInternal`
and the `DPTensorAggregatorBundle` constructor.  C++ `double` values are modelled
as exact rationals (`ℚ`); C++ `int` as `Int`.  The aggregator registry and the
nested aggregator factories are external collaborators (their code is outside
the file under verification), so they are modelled as an explicitly injected
environment `Env`, as the design notes of the specification themselves suggest.
An out-of-range access into the repeated `nested_serialized_states` field of the
persisted state proto is undefined behaviour in C++, so the embedding gives it a
distinguished outcome `undef` rather than a value.
-/

namespace TFF
namespace Aggregation

/-- Kind of a tensor element type, as classified by `internal::GetTypeKind`. -/
inductive TypeKind where
  | kUnknown
  | kNumeric
  | kString
deriving DecidableEq, Repr

/-- Tensor element data types (the subset of `DataType` exercised here).
`DT_STRING` is the non-numeric representative. -/
inductive DataType where
  | DT_FLOAT
  | DT_DOUBLE
  | DT_INT32
  | DT_INT64
  | DT_UINT64
  | DT_STRING
deriving DecidableEq, Repr

/-- Embedding of `internal::GetTypeKind`: string tensors are `kString`,
the remaining (numeric) dtypes are `kNumeric`. -/
def GetTypeKind : DataType → TypeKind
  | .DT_STRING => .kString
  | _ => .kNumeric

/-- A tensor spec (name and dtype); only its presence in `Intrinsic.inputs`
matters here, since the factory records `nested.inputs.size()`. -/
structure TensorSpec where
  name : String
  dtype : DataType
deriving DecidableEq, Repr

/-- A parameter tensor: its dtype and the scalar read by `AsScalar<double>`,
modelled as an exact rational. -/
structure Tensor where
  dtype : DataType
  scalar : ℚ
deriving DecidableEq, Repr

/-- A nested intrinsic: its `intrinsic_uri`, its input tensor specs and its
parameter tensors.  (In the C++ source nested intrinsics are full `Intrinsic`
values; only these fields are consulted on this code path.) -/
structure NestedIntrinsic where
  uri : String
  inputs : List TensorSpec
  parameters : List Tensor
deriving DecidableEq, Repr

/-- The top-level intrinsic handed to the bundle factory: its nested intrinsics
and its parameter tensors. -/
structure Intrinsic where
  nested_intrinsics : List NestedIntrinsic
  parameters : List Tensor
deriving DecidableEq, Repr

/-- The `DPTensorAggregatorBundleState` proto: the persisted input counter and
the ordered repeated field of per-aggregator serialized states. -/
structure DPTensorAggregatorBundleState where
  num_inputs : Int
  nested_serialized_states : List String
deriving DecidableEq, Repr

/-- Status codes relevant to this code path. -/
inductive StatusCode where
  | OK
  | INVALID_ARGUMENT
  | NOT_FOUND
  | INTERNAL
deriving DecidableEq, Repr

/-- A `Status`: a code plus a human-readable message. -/
structure Status where
  code : StatusCode
  message : String
deriving DecidableEq, Repr

/-- A resolved `TensorAggregator` instance as returned by a nested factory.
`isDP` records whether `dynamic_cast<DPTensorAggregator*>` on it succeeds,
i.e. whether the instance actually is a `DPTensorAggregator`; `tag` is an
identity allowing distinct instances to be told apart. -/
structure TensorAggregatorObj where
  isDP : Bool
  tag : ℕ
deriving DecidableEq, Repr

/-- The external collaborators of the factory, injected as an environment:
`getAggregatorFactory` models registry lookup of a URI (success or a failing
`Status`), and `create` / `deserialize` model `factory->Create(nested)` and
`factory->Deserialize(nested, blob)` of the factory registered for
`nested.uri`. -/
structure Env where
  getAggregatorFactory : String → Except Status Unit
  create : NestedIntrinsic → Except Status TensorAggregatorObj
  deserialize : NestedIntrinsic → String → Except Status TensorAggregatorObj

/-- Modelled from the spec: `kEpsilonIndex` lives in `dp_fedsql_constants.h`,
which is outside the file under verification; the spec fixes epsilon at the
first of the two fixed parameter positions. -/
def kEpsilonIndex : ℕ := 0

/-- Modelled from the spec: `kDeltaIndex` lives in `dp_fedsql_constants.h`,
which is outside the file under verification; the spec fixes delta at the
second of the two fixed parameter positions. -/
def kDeltaIndex : ℕ := 1

/-- The classified errors `CreateInternal` can produce.  `external` carries a
`Status` propagated by `TFF_ASSIGN_OR_RETURN` from the registry or a nested
factory; the remaining constructors are the factory's own validation
failures. -/
inductive BundleError where
  | external (s : Status)
  | emptyNested
  | notDP (uri : String)
  | wrongParamCount (got : ℕ)
  | epsilonNotNumeric
  | deltaNotNumeric
  | epsilonNotPositive (eps : ℚ)
  | deltaOutOfRange (d : ℚ)
deriving DecidableEq, Repr

/-- The `Status` actually returned for each `BundleError`, with the message
text of the C++ source.  All of the factory's own errors are
`INVALID_ARGUMENT`; an `external` error propagates unchanged. -/
def BundleError.toStatus : BundleError → Status
  | .external s => s
  | .emptyNested =>
      ⟨.INVALID_ARGUMENT,
       "DPTensorAggregatorBundleFactory::CreateInternal: Expected at least one nested intrinsic, got none."⟩
  | .notDP uri =>
      ⟨.INVALID_ARGUMENT,
       "DPTensorAggregatorBundleFactory::CreateInternal: Expected all nested intrinsics to be DPTensorAggregators, got " ++ uri⟩
  | .wrongParamCount got =>
      ⟨.INVALID_ARGUMENT,
       "DPTensorAggregatorBundleFactory::CreateInternal: Expected 2 parameters, got " ++ toString got⟩
  | .epsilonNotNumeric =>
      ⟨.INVALID_ARGUMENT,
       "DPTensorAggregatorBundleFactory::CreateInternal: Epsilon must be numerical."⟩
  | .deltaNotNumeric =>
      ⟨.INVALID_ARGUMENT,
       "DPTensorAggregatorBundleFactory::CreateInternal: Delta must be numerical."⟩
  | .epsilonNotPositive eps =>
      ⟨.INVALID_ARGUMENT,
       "DPTensorAggregatorBundleFactory::CreateInternal: Epsilon must be positive, but got " ++ toString eps⟩
  | .deltaOutOfRange d =>
      ⟨.INVALID_ARGUMENT,
       "DPTensorAggregatorBundleFactory::CreateInternal: Delta must be non-negative and less than 1, but got " ++ toString d⟩

/-- Outcome of a computation along the construction path: a value, a returned
error `Status` (classified), or C++ undefined behaviour (out-of-range repeated
field access). -/
inductive COutcome (α : Type) where
  | ok (a : α)
  | err (e : BundleError)
  | undef
deriving DecidableEq, Repr

/-- The `DPTensorAggregatorBundle` object built by the constructor: the owned
nested aggregators, the parallel per-aggregator input-tensor counts, the single
shared per-aggregator epsilon and delta, and the input counter. -/
structure DPTensorAggregatorBundle where
  aggregators : List TensorAggregatorObj
  num_tensors_per_agg : List ℕ
  epsilon_per_agg : ℚ
  delta_per_agg : ℚ
  num_inputs : Int
deriving DecidableEq, Repr

/-- One iteration of the resolution loop at index `i`: registry lookup of
`nested.uri`, then `factory->Deserialize(nested, state.nested_serialized_states(i))`
when a persisted state is present (reading the repeated field at `i`, which is
undefined behaviour when out of range) or `factory->Create(nested)` otherwise,
then the `dynamic_cast<DPTensorAggregator*>` capability check. -/
def resolveOne (env : Env) (st : Option DPTensorAggregatorBundleState)
    (nested : NestedIntrinsic) (i : ℕ) : COutcome TensorAggregatorObj :=
  match env.getAggregatorFactory nested.uri with
  | .error s => .err (.external s)
  | .ok _ =>
    let stepped : COutcome TensorAggregatorObj :=
      match st with
      | some s =>
        match s.nested_serialized_states[i]? with
        | none => .undef
        | some blob =>
          match env.deserialize nested blob with
          | .error e => .err (.external e)
          | .ok a => .ok a
      | none =>
        match env.create nested with
        | .error e => .err (.external e)
        | .ok a => .ok a
    match stepped with
    | .undef => .undef
    | .err e => .err e
    | .ok a => if a.isDP then .ok a else .err (.notDP nested.uri)

/-- The resolution loop of `CreateInternal` over the nested intrinsics,
starting at index `i`: on success it accumulates `nested_aggregators` and
`num_tensors_per_agg` (the latter records `nested.inputs.size()`), in order. -/
def resolveLoop (env : Env) (st : Option DPTensorAggregatorBundleState) :
    List NestedIntrinsic → ℕ → COutcome (List TensorAggregatorObj × List ℕ)
  | [], _ => .ok ([], [])
  | nested :: rest, i =>
    match resolveOne env st nested i with
    | .undef => .undef
    | .err e => .err e
    | .ok a =>
      match resolveLoop env st rest (i + 1) with
      | .undef => .undef
      | .err e => .err e
      | .ok (aggs, counts) => .ok (a :: aggs, nested.inputs.length :: counts)

/-- The C++ expression `aggregator_state == nullptr ? 0 : aggregator_state->num_inputs()`
of `CreateInternal`. -/
def stateNumInputs : Option DPTensorAggregatorBundleState → Int
  | none => 0
  | some s => s.num_inputs

/-- Embedding of `DPTensorAggregatorBundleFactory::CreateInternal`.  The
`kEpsilonThreshold` constant lives in `dp_fedsql_constants.h`, outside the file
under verification; following the design notes of the spec it is injected as an
explicit argument.  Faithful to the source: the empty-nested check, the
resolution loop (with per-index deserialization on restore), the parameter
count check, the epsilon/delta numeric, positivity and range checks, and the
budget split `epsilon_per_agg` / `delta_per_agg`. -/
def CreateInternal (env : Env) (kEpsilonThreshold : ℚ) (intrinsic : Intrinsic)
    (aggregator_state : Option DPTensorAggregatorBundleState) :
    COutcome DPTensorAggregatorBundle :=
  if intrinsic.nested_intrinsics.isEmpty then
    .err .emptyNested
  else
    let num_inputs : Int := stateNumInputs aggregator_state
    match resolveLoop env aggregator_state intrinsic.nested_intrinsics 0 with
    | .undef => .undef
    | .err e => .err e
    | .ok (nested_aggregators, num_tensors_per_agg) =>
      let num_nested_intrinsics : ℕ := intrinsic.nested_intrinsics.length
      match intrinsic.parameters with
      | [epsTensor, deltaTensor] =>
        if GetTypeKind epsTensor.dtype ≠ .kNumeric then
          .err .epsilonNotNumeric
        else
          let epsilon := epsTensor.scalar
          if GetTypeKind deltaTensor.dtype ≠ .kNumeric then
            .err .deltaNotNumeric
          else
            let delta := deltaTensor.scalar
            if epsilon ≤ 0 then
              .err (.epsilonNotPositive epsilon)
            else if delta < 0 ∨ 1 ≤ delta then
              .err (.deltaOutOfRange delta)
            else
              let epsilon_per_agg : ℚ :=
                if epsilon < kEpsilonThreshold then
                  epsilon / (num_nested_intrinsics : ℚ)
                else kEpsilonThreshold
              let delta_per_agg : ℚ := delta / (num_nested_intrinsics : ℚ)
              .ok ⟨nested_aggregators, num_tensors_per_agg,
                   epsilon_per_agg, delta_per_agg, num_inputs⟩
      | ps => .err (.wrongParamCount ps.length)

/-- Well-formedness of an optional persisted state for a given intrinsic: when
present, it carries at least one serialized blob per nested intrinsic (the
precondition under which the per-index proto accesses of the factory stay in
range; the code performs no such count check itself). -/
def WFState (intrinsic : Intrinsic) :
    Option DPTensorAggregatorBundleState → Prop
  | none => True
  | some s =>
      intrinsic.nested_intrinsics.length ≤ s.nested_serialized_states.length

/-- An environment whose collaborators only ever fail with
`INVALID_ARGUMENT` (as the specification states for resolution failures). -/
def EnvInvalidOnly (env : Env) : Prop :=
  (∀ uri s, env.getAggregatorFactory uri = .error s →
    s.code = .INVALID_ARGUMENT) ∧
  (∀ n s, env.create n = .error s → s.code = .INVALID_ARGUMENT) ∧
  (∀ n blob s, env.deserialize n blob = .error s → s.code = .INVALID_ARGUMENT)

theorem resolveOne_ok_isDP {env st nested i a}
    (h : resolveOne env st nested i = .ok a) : a.isDP = true := by
  unfold resolveOne at h
  cases hf : env.getAggregatorFactory nested.uri with
  | error s => rw [hf] at h; simp at h
  | ok u =>
    rw [hf] at h
    simp only at h
    split at h
    · simp at h
    · simp at h
    · rename_i a' ha'
      split at h
      · simp only [COutcome.ok.injEq] at h
        subst h; assumption
      · simp at h

theorem resolveOne_ne_undef {env st nested i}
    (hin : ∀ s, st = some s → i < s.nested_serialized_states.length) :
    resolveOne env st nested i ≠ .undef := by
  unfold resolveOne
  cases hf : env.getAggregatorFactory nested.uri with
  | error s => simp
  | ok u =>
    simp only
    cases st with
    | none =>
      cases hc : env.create nested <;> simp [hc]
      split <;> simp
    | some s =>
      cases hb : s.nested_serialized_states[i]? with
      | none =>
        exact absurd (List.getElem?_eq_none_iff.mp hb) (Nat.not_le.mpr (hin s rfl))
      | some blob =>
        simp only [hb]
        cases hd : env.deserialize nested blob <;> simp [hd]
        split <;> simp

theorem resolveLoop_ne_undef {env} :
    ∀ {specs : List NestedIntrinsic} {i : ℕ}
      {st : Option DPTensorAggregatorBundleState},
      (∀ s, st = some s →
        i + specs.length ≤ s.nested_serialized_states.length) →
      resolveLoop env st specs i ≠ .undef := by
  intro specs
  induction specs with
  | nil => intro i st _; simp [resolveLoop]
  | cons nested rest ih =>
    intro i st hin
    unfold resolveLoop
    have h1 : resolveOne env st nested i ≠ .undef := by
      refine resolveOne_ne_undef ?_
      intro s hs
      have := hin s hs
      simp [List.length_cons] at this
      omega
    cases hro : resolveOne env st nested i with
    | undef => exact absurd hro h1
    | err e => simp
    | ok a =>
      simp only
      have h2 : resolveLoop env st rest (i + 1) ≠ .undef := by
        refine ih ?_
        intro s hs
        have := hin s hs
        simp [List.length_cons] at this
        omega
      cases hrl : resolveLoop env st rest (i + 1) with
      | undef => exact absurd hrl h2
      | err e => simp
      | ok p => cases p; simp

theorem resolveLoop_ok_length {env st} :
    ∀ {specs : List NestedIntrinsic} {i : ℕ}
      {aggs : List TensorAggregatorObj} {counts : List ℕ},
      resolveLoop env st specs i = .ok (aggs, counts) →
      aggs.length = specs.length ∧ counts.length = specs.length := by
  intro specs
  induction specs with
  | nil =>
    intro i aggs counts h
    simp only [resolveLoop, COutcome.ok.injEq, Prod.mk.injEq] at h
    obtain ⟨h1, h2⟩ := h
    subst h1; subst h2
    simp
  | cons nested rest ih =>
    intro i aggs counts h
    unfold resolveLoop at h
    cases hro : resolveOne env st nested i with
    | undef => rw [hro] at h; simp at h
    | err e => rw [hro] at h; simp at h
    | ok a =>
      rw [hro] at h
      simp only at h
      cases hrl : resolveLoop env st rest (i + 1) with
      | undef => rw [hrl] at h; simp at h
      | err e => rw [hrl] at h; simp at h
      | ok p =>
        obtain ⟨aggs', counts'⟩ := p
        rw [hrl] at h
        simp only [COutcome.ok.injEq, Prod.mk.injEq] at h
        obtain ⟨h1, h2⟩ := h
        subst h1; subst h2
        have := ih hrl
        simp [List.length_cons, this.1, this.2]

theorem resolveLoop_ok_get {env st} :
    ∀ {specs : List NestedIntrinsic} {i : ℕ}
      {aggs : List TensorAggregatorObj} {counts : List ℕ},
      resolveLoop env st specs i = .ok (aggs, counts) →
      ∀ j nested, specs.get? j = some nested →
        counts.get? j = some nested.inputs.length ∧
        ∃ a, aggs.get? j = some a ∧
          resolveOne env st nested (i + j) = .ok a := by
  intro specs
  induction specs with
  | nil => intro i aggs counts _ j nested hj; simp at hj
  | cons hd rest ih =>
    intro i aggs counts h j nested hj
    unfold resolveLoop at h
    cases hro : resolveOne env st hd i with
    | undef => rw [hro] at h; simp at h
    | err e => rw [hro] at h; simp at h
    | ok a =>
      rw [hro] at h
      simp only at h
      cases hrl : resolveLoop env st rest (i + 1) with
      | undef => rw [hrl] at h; simp at h
      | err e => rw [hrl] at h; simp at h
      | ok p =>
        obtain ⟨aggs', counts'⟩ := p
        rw [hrl] at h
        simp only [COutcome.ok.injEq, Prod.mk.injEq] at h
        obtain ⟨h1, h2⟩ := h
        subst h1; subst h2
        cases j with
        | zero =>
          simp only [List.get?] at hj
          cases hj
          refine ⟨rfl, a, rfl, ?_⟩
          simpa using hro
        | succ j' =>
          simp only [List.get?] at hj
          have := ih hrl j' nested hj
          refine ⟨this.1, ?_⟩
          obtain ⟨a', ha1, ha2⟩ := this.2
          refine ⟨a', ha1, ?_⟩
          have harith : i + (j' + 1) = i + 1 + j' := by omega
          rw [harith]
          exact ha2

theorem createInternal_ne_undef {env : Env} {T : ℚ} {intrinsic : Intrinsic}
    {st : Option DPTensorAggregatorBundleState} (hwf : WFState intrinsic st) :
    CreateInternal env T intrinsic st ≠ .undef := by
  have hloop : resolveLoop env st intrinsic.nested_intrinsics 0 ≠ .undef := by
    refine resolveLoop_ne_undef ?_
    intro s hs
    subst hs
    simpa [WFState] using hwf
  unfold CreateInternal
  split
  · simp
  · split
    · exact absurd (by assumption) hloop
    · simp
    · split
      · dsimp only
        split
        · simp
        · split
          · simp
          · split
            · simp
            · split
              · simp
              · simp
      · simp

theorem createInternal_ok_inv {env : Env} {T : ℚ} {intrinsic : Intrinsic}
    {st : Option DPTensorAggregatorBundleState} {b : DPTensorAggregatorBundle}
    (h : CreateInternal env T intrinsic st = .ok b) :
    ∃ epsTensor deltaTensor,
      intrinsic.parameters = [epsTensor, deltaTensor] ∧
      intrinsic.nested_intrinsics ≠ [] ∧
      resolveLoop env st intrinsic.nested_intrinsics 0 =
        .ok (b.aggregators, b.num_tensors_per_agg) ∧
      GetTypeKind epsTensor.dtype = .kNumeric ∧
      GetTypeKind deltaTensor.dtype = .kNumeric ∧
      0 < epsTensor.scalar ∧
      0 ≤ deltaTensor.scalar ∧ deltaTensor.scalar < 1 ∧
      b.epsilon_per_agg =
        (if epsTensor.scalar < T
         then epsTensor.scalar / (intrinsic.nested_intrinsics.length : ℚ)
         else T) ∧
      b.delta_per_agg =
        deltaTensor.scalar / (intrinsic.nested_intrinsics.length : ℚ) ∧
      b.num_inputs = stateNumInputs st := by
  unfold CreateInternal at h
  split at h
  · simp at h
  · rename_i hne
    split at h
    · simp at h
    · simp at h
    · rename_i aggs counts hrl
      split at h
      · rename_i epsTensor deltaTensor hparams
        split at h
        · simp at h
        · rename_i hEpsNum
          split at h
          · simp at h
          · rename_i hDeltaNum
            dsimp only at h
            split at h
            · simp at h
            · rename_i hEpsPos
              split at h
              · simp at h
              · rename_i hDeltaRange
                simp only [COutcome.ok.injEq] at h
                subst h
                push_neg at hEpsPos hDeltaRange
                rw [not_not] at hEpsNum hDeltaNum
                refine ⟨epsTensor, deltaTensor, hparams, ?_, hrl, hEpsNum,
                  hDeltaNum, hEpsPos, hDeltaRange.1, hDeltaRange.2,
                  rfl, rfl, rfl⟩
                simpa [List.isEmpty_iff] using hne
      · simp at h

theorem resolveOne_err_cases {env st nested i e}
    (h : resolveOne env st nested i = .err e) :
    (∃ s, env.getAggregatorFactory nested.uri = .error s ∧ e = .external s) ∨
    (∃ s, env.create nested = .error s ∧ e = .external s) ∨
    (∃ s blob, env.deserialize nested blob = .error s ∧ e = .external s) ∨
    e = .notDP nested.uri := by
  unfold resolveOne at h
  cases hf : env.getAggregatorFactory nested.uri with
  | error s =>
    rw [hf] at h
    simp only [COutcome.err.injEq] at h
    exact Or.inl ⟨s, rfl, h.symm⟩
  | ok u =>
    rw [hf] at h
    dsimp only at h
    cases st with
    | none =>
      cases hc : env.create nested with
      | error s =>
        rw [hc] at h
        simp only [COutcome.err.injEq] at h
        exact Or.inr (Or.inl ⟨s, rfl, h.symm⟩)
      | ok a =>
        rw [hc] at h
        by_cases ha : a.isDP = true
        · simp [ha] at h
        · rw [Bool.not_eq_true] at ha
          simp only [ha] at h
          simp only [Bool.false_eq_true, if_false, COutcome.err.injEq] at h
          exact Or.inr (Or.inr (Or.inr h.symm))
    | some s =>
      cases hb : s.nested_serialized_states[i]? with
      | none =>
        simp only [hb] at h
        exact (COutcome.noConfusion h)
      | some blob =>
        simp only [hb] at h
        cases hd : env.deserialize nested blob with
        | error s' =>
          rw [hd] at h
          simp only [COutcome.err.injEq] at h
          exact Or.inr (Or.inr (Or.inl ⟨s', blob, hd, h.symm⟩))
        | ok a =>
          rw [hd] at h
          by_cases ha : a.isDP = true
          · simp [ha] at h
          · rw [Bool.not_eq_true] at ha
            simp only [ha] at h
            simp only [Bool.false_eq_true, if_false, COutcome.err.injEq] at h
            exact Or.inr (Or.inr (Or.inr h.symm))

theorem resolveOne_err_invalid {env st nested i e}
    (henv : EnvInvalidOnly env) (h : resolveOne env st nested i = .err e) :
    e.toStatus.code = .INVALID_ARGUMENT := by
  rcases resolveOne_err_cases h with
    ⟨s, hf, he⟩ | ⟨s, hc, he⟩ | ⟨s, blob, hd, he⟩ | he
  · subst he; exact henv.1 _ _ hf
  · subst he; exact henv.2.1 _ _ hc
  · subst he; exact henv.2.2 _ _ _ hd
  · subst he; rfl

theorem resolveLoop_err_invalid {env} (henv : EnvInvalidOnly env) :
    ∀ {specs : List NestedIntrinsic} {i : ℕ}
      {st : Option DPTensorAggregatorBundleState} {e : BundleError},
      resolveLoop env st specs i = .err e →
      e.toStatus.code = .INVALID_ARGUMENT := by
  intro specs
  induction specs with
  | nil => intro i st e h; simp [resolveLoop] at h
  | cons nested rest ih =>
    intro i st e h
    unfold resolveLoop at h
    cases hro : resolveOne env st nested i with
    | undef => rw [hro] at h; simp at h
    | err e' =>
      rw [hro] at h
      simp only [COutcome.err.injEq] at h
      subst h
      exact resolveOne_err_invalid henv hro
    | ok a =>
      rw [hro] at h
      dsimp only at h
      cases hrl : resolveLoop env st rest (i + 1) with
      | undef => rw [hrl] at h; simp at h
      | err e' =>
        rw [hrl] at h
        simp only [COutcome.err.injEq] at h
        subst h
        exact ih hrl
      | ok p =>
        obtain ⟨aggs, counts⟩ := p
        rw [hrl] at h
        simp at h

theorem createInternal_err_invalid {env : Env} {T : ℚ} {intrinsic : Intrinsic}
    {st : Option DPTensorAggregatorBundleState} {e : BundleError}
    (henv : EnvInvalidOnly env) (h : CreateInternal env T intrinsic st = .err e) :
    e.toStatus.code = .INVALID_ARGUMENT := by
  unfold CreateInternal at h
  split at h
  · simp only [COutcome.err.injEq] at h; subst h; rfl
  · split at h
    · simp at h
    · rename_i e' hrl
      simp only [COutcome.err.injEq] at h
      subst h
      exact resolveLoop_err_invalid henv hrl
    · split at h
      · split at h
        · simp only [COutcome.err.injEq] at h; subst h; rfl
        · split at h
          · simp only [COutcome.err.injEq] at h; subst h; rfl
          · dsimp only at h
            split at h
            · simp only [COutcome.err.injEq] at h; subst h; rfl
            · split at h
              · simp only [COutcome.err.injEq] at h; subst h; rfl
              · simp at h
      · simp only [COutcome.err.injEq] at h; subst h; rfl

/-- Modelled from the spec, section 4.1 step 2: resolution of one nested spec
in the stated order — restore from the blob at the same index when a persisted
state is present, else construct fresh via the identifier, then the
DP-capability check, whose failure names the offending identifier.  (The
out-of-range blob case is undefined per the spec; the model reads a default
blob there, and the agreement theorems below only apply in-range.) -/
def specResolveOne (env : Env) (st : Option DPTensorAggregatorBundleState)
    (nested : NestedIntrinsic) (i : ℕ) : Option BundleError :=
  match env.getAggregatorFactory nested.uri with
  | .error s => some (.external s)
  | .ok _ =>
    let resolved : Except Status TensorAggregatorObj :=
      match st with
      | some s => env.deserialize nested (s.nested_serialized_states.getD i "")
      | none => env.create nested
    match resolved with
    | .error e => some (.external e)
    | .ok a => if a.isDP then none else some (.notDP nested.uri)

/-- Modelled from the spec, section 4.1 step 2: the first resolution or
DP-capability violation over the nested specs, in index order. -/
def specResolveViolation (env : Env) (st : Option DPTensorAggregatorBundleState) :
    List NestedIntrinsic → ℕ → Option BundleError
  | [], _ => none
  | nested :: rest, i =>
    match specResolveOne env st nested i with
    | some e => some e
    | none => specResolveViolation env st rest (i + 1)

/-- Modelled from the spec, section 4.1: the first violated validation rule in
the fixed check order — (1) non-empty nested-spec list, (2) per-nested-spec
resolution and DP-capability check in index order, then (4) parameter count
exactly 2, epsilon numeric, delta numeric, epsilon positive, delta in the
half-open unit interval.  Returns the error of the first violated rule, or
none when the specification passes validation. -/
def specFirstViolation (env : Env) (intrinsic : Intrinsic)
    (st : Option DPTensorAggregatorBundleState) : Option BundleError :=
  if intrinsic.nested_intrinsics.isEmpty then some .emptyNested
  else
    match specResolveViolation env st intrinsic.nested_intrinsics 0 with
    | some e => some e
    | none =>
      if intrinsic.parameters.length ≠ 2 then
        some (.wrongParamCount intrinsic.parameters.length)
      else
        match intrinsic.parameters with
        | [epsTensor, deltaTensor] =>
          if GetTypeKind epsTensor.dtype ≠ .kNumeric then
            some .epsilonNotNumeric
          else if GetTypeKind deltaTensor.dtype ≠ .kNumeric then
            some .deltaNotNumeric
          else if epsTensor.scalar ≤ 0 then
            some (.epsilonNotPositive epsTensor.scalar)
          else if deltaTensor.scalar < 0 ∨ 1 ≤ deltaTensor.scalar then
            some (.deltaOutOfRange deltaTensor.scalar)
          else none
        | _ => none

theorem resolveOne_agrees {env st nested i}
    (hin : ∀ s, st = some s → i < s.nested_serialized_states.length) :
    (∀ e, resolveOne env st nested i = .err e ↔
      specResolveOne env st nested i = some e) ∧
    (specResolveOne env st nested i = none ↔
      ∃ a, resolveOne env st nested i = .ok a) := by
  unfold resolveOne specResolveOne
  cases hf : env.getAggregatorFactory nested.uri with
  | error s => simp
  | ok u =>
    dsimp only
    cases st with
    | none =>
      cases hc : env.create nested with
      | error s => simp [hc]
      | ok a =>
        by_cases ha : a.isDP = true <;> simp [hc, ha]
    | some s =>
      cases hb : s.nested_serialized_states[i]? with
      | none =>
        exact absurd (List.getElem?_eq_none_iff.mp hb)
          (Nat.not_le.mpr (hin s rfl))
      | some blob =>
        cases hd : env.deserialize nested blob with
        | error s' => simp [hb, hd]
        | ok a =>
          by_cases ha : a.isDP = true <;> simp [hb, hd, ha]

theorem resolveLoop_agrees {env} :
    ∀ {specs : List NestedIntrinsic} {i : ℕ}
      {st : Option DPTensorAggregatorBundleState},
      (∀ s, st = some s →
        i + specs.length ≤ s.nested_serialized_states.length) →
      (∀ e, resolveLoop env st specs i = .err e ↔
        specResolveViolation env st specs i = some e) ∧
      (specResolveViolation env st specs i = none ↔
        ∃ p, resolveLoop env st specs i = .ok p) := by
  intro specs
  induction specs with
  | nil => intro i st _; simp [resolveLoop, specResolveViolation]
  | cons nested rest ih =>
    intro i st hin
    have hin1 : ∀ s, st = some s → i < s.nested_serialized_states.length := by
      intro s hs
      have := hin s hs
      simp [List.length_cons] at this
      omega
    have hinr : ∀ s, st = some s →
        (i + 1) + rest.length ≤ s.nested_serialized_states.length := by
      intro s hs
      have := hin s hs
      simp [List.length_cons] at this
      omega
    have hone := @resolveOne_agrees env st nested i hin1
    have hrest := ih hinr
    unfold resolveLoop specResolveViolation
    cases hro : resolveOne env st nested i with
    | undef =>
      exact absurd hro (resolveOne_ne_undef hin1)
    | err e' =>
      have hs1 : specResolveOne env st nested i = some e' := (hone.1 e').mp hro
      rw [hs1]
      constructor
      · intro e; simp
      · constructor
        · intro hnone; simp at hnone
        · intro ⟨p, hp⟩; simp at hp
    | ok a =>
      have hs1 : specResolveOne env st nested i = none := by
        exact hone.2.mpr ⟨a, hro⟩
      rw [hs1]
      dsimp only
      cases hrl : resolveLoop env st rest (i + 1) with
      | undef =>
        exact absurd hrl (resolveLoop_ne_undef hinr)
      | err e' =>
        have : specResolveViolation env st rest (i + 1) = some e' :=
          (hrest.1 e').mp hrl
        rw [this]
        constructor
        · intro e; simp
        · constructor
          · intro hnone; simp at hnone
          · intro ⟨p, hp⟩; simp at hp
      | ok p =>
        obtain ⟨aggs, counts⟩ := p
        have : specResolveViolation env st rest (i + 1) = none := by
          refine hrest.2.mpr ⟨(aggs, counts), hrl⟩
        rw [this]
        constructor
        · intro e; simp
        · simp

theorem createInternal_agrees_spec {env : Env} {T : ℚ} {intrinsic : Intrinsic}
    {st : Option DPTensorAggregatorBundleState} (hwf : WFState intrinsic st) :
    (∀ e, CreateInternal env T intrinsic st = .err e ↔
      specFirstViolation env intrinsic st = some e) ∧
    (specFirstViolation env intrinsic st = none ↔
      ∃ b, CreateInternal env T intrinsic st = .ok b) := by
  have hinAll : ∀ s, st = some s →
      0 + intrinsic.nested_intrinsics.length ≤
        s.nested_serialized_states.length := by
    intro s hs
    subst hs
    simpa [WFState] using hwf
  have hloopAg := @resolveLoop_agrees env intrinsic.nested_intrinsics 0 st hinAll
  have hloopU := @resolveLoop_ne_undef env intrinsic.nested_intrinsics 0 st hinAll
  unfold CreateInternal specFirstViolation
  by_cases hemp : intrinsic.nested_intrinsics.isEmpty = true
  · simp [hemp]
  · simp only [hemp, if_false]
    cases hrl : resolveLoop env st intrinsic.nested_intrinsics 0 with
    | undef => exact absurd hrl hloopU
    | err e0 =>
      have hsv : specResolveViolation env st intrinsic.nested_intrinsics 0 =
          some e0 := (hloopAg.1 e0).mp hrl
      rw [hsv]
      simp
    | ok p =>
      obtain ⟨aggs, counts⟩ := p
      have hsv : specResolveViolation env st intrinsic.nested_intrinsics 0 =
          none := hloopAg.2.mpr ⟨(aggs, counts), hrl⟩
      rw [hsv]
      dsimp only
      rcases hp : intrinsic.parameters with _ | ⟨p0, _ | ⟨p1, _ | ⟨p2, rest⟩⟩⟩
      · simp
      · simp
      · by_cases h1 : GetTypeKind p0.dtype = TypeKind.kNumeric
        · by_cases h2 : GetTypeKind p1.dtype = TypeKind.kNumeric
          · by_cases h3 : p0.scalar ≤ 0
            · simp [h1, h2, h3]
            · by_cases h4 : p1.scalar < 0 ∨ 1 ≤ p1.scalar
              · simp [h1, h2, h3, h4]
              · simp [h1, h2, h3, h4]
          · simp [h1, h2]
        · simp [h1]
      · simp

/-- The raw result of `factory->Create` / `factory->Deserialize` for the nested
spec at index `i`, before the DP-capability check: `none` when the per-index
blob access is out of range. -/
def rawResolve (env : Env) (st : Option DPTensorAggregatorBundleState)
    (nested : NestedIntrinsic) (i : ℕ) :
    Option (Except Status TensorAggregatorObj) :=
  match st with
  | none => some (env.create nested)
  | some s =>
    match s.nested_serialized_states[i]? with
    | none => none
    | some blob => some (env.deserialize nested blob)

theorem resolveOne_ok_inv {env st nested i a}
    (h : resolveOne env st nested i = .ok a) :
    (∃ u, env.getAggregatorFactory nested.uri = .ok u) ∧
    rawResolve env st nested i = some (.ok a) ∧ a.isDP = true := by
  unfold resolveOne at h
  cases hf : env.getAggregatorFactory nested.uri with
  | error s => rw [hf] at h; simp at h
  | ok u =>
    rw [hf] at h
    dsimp only at h
    refine ⟨⟨u, rfl⟩, ?_⟩
    unfold rawResolve
    cases st with
    | none =>
      cases hc : env.create nested with
      | error s => rw [hc] at h; simp at h
      | ok a' =>
        rw [hc] at h
        by_cases ha : a'.isDP = true
        · simp only [ha, if_true, COutcome.ok.injEq] at h
          subst h
          refine ⟨?_, ha⟩
          simp [hc]
        · simp [ha] at h
    | some s =>
      cases hb : s.nested_serialized_states[i]? with
      | none => simp [hb] at h
      | some blob =>
        simp only [hb] at h
        cases hd : env.deserialize nested blob with
        | error s' => rw [hd] at h; simp at h
        | ok a' =>
          rw [hd] at h
          by_cases ha : a'.isDP = true
          · simp only [ha, if_true, COutcome.ok.injEq] at h
            subst h
            refine ⟨?_, ha⟩
            simp [hb, hd]
          · simp [ha] at h

theorem resolveOne_notDP_of_raw {env st nested i a}
    (hfac : ∃ u, env.getAggregatorFactory nested.uri = .ok u)
    (hraw : rawResolve env st nested i = some (.ok a))
    (hnot : a.isDP = false) :
    resolveOne env st nested i = .err (.notDP nested.uri) := by
  obtain ⟨u, hf⟩ := hfac
  unfold rawResolve at hraw
  unfold resolveOne
  rw [hf]
  dsimp only
  cases st with
  | none =>
    simp only [Option.some.injEq] at hraw
    simp [hraw, hnot]
  | some s =>
    cases hb : s.nested_serialized_states[i]? with
    | none => simp [hb] at hraw
    | some blob =>
      simp only [hb, Option.some.injEq] at hraw
      simp [hb, hraw, hnot]

theorem resolveLoop_err_of_first {env st} :
    ∀ {specs : List NestedIntrinsic} {i j : ℕ} {nested : NestedIntrinsic}
      {e : BundleError},
      specs.get? j = some nested →
      (∀ k nk, k < j → specs.get? k = some nk →
        ∃ a, resolveOne env st nk (i + k) = .ok a) →
      resolveOne env st nested (i + j) = .err e →
      resolveLoop env st specs i = .err e := by
  intro specs
  induction specs with
  | nil => intro i j nested e hj _ _; simp at hj
  | cons hd rest ih =>
    intro i j nested e hj hfirst herr
    cases j with
    | zero =>
      simp only [List.get?] at hj
      cases hj
      unfold resolveLoop
      rw [show i + 0 = i from rfl] at herr
      rw [herr]
    | succ j' =>
      simp only [List.get?] at hj
      obtain ⟨a0, ha0⟩ := hfirst 0 hd (Nat.succ_pos j') rfl
      rw [show i + 0 = i from rfl] at ha0
      unfold resolveLoop
      rw [ha0]
      dsimp only
      have hrest : resolveLoop env st rest (i + 1) = .err e := by
        refine ih hj ?_ ?_
        · intro k nk hk hget
          have := hfirst (k + 1) nk (Nat.succ_lt_succ hk) hget
          rwa [show i + (k + 1) = (i + 1) + k by omega] at this
        · rwa [show (i + 1) + j' = i + (j' + 1) by omega]
      rw [hrest]

theorem createInternal_err_of_loop {env : Env} {T : ℚ} {intrinsic : Intrinsic}
    {st : Option DPTensorAggregatorBundleState} {e : BundleError}
    (hne : intrinsic.nested_intrinsics ≠ [])
    (hrl : resolveLoop env st intrinsic.nested_intrinsics 0 = .err e) :
    CreateInternal env T intrinsic st = .err e := by
  unfold CreateInternal
  rw [if_neg (by simpa [List.isEmpty_iff] using hne)]
  dsimp only
  rw [hrl]

/-- An environment in which every URI resolves and every resolved instance is
a DP aggregator; fresh instances carry tag 0, restored ones tag 1. -/
def okEnv : Env where
  getAggregatorFactory := fun _ => .ok ()
  create := fun _ => .ok ⟨true, 0⟩
  deserialize := fun _ _ => .ok ⟨true, 1⟩

/-- An environment like `okEnv` except that the URI "bad" resolves to an
instance that fails the `dynamic_cast` to `DPTensorAggregator`. -/
def mixedEnv : Env where
  getAggregatorFactory := fun _ => .ok ()
  create := fun n => .ok ⟨n.uri != "bad", 0⟩
  deserialize := fun n _ => .ok ⟨n.uri != "bad", 1⟩

/-- A nested DP intrinsic with one input tensor. -/
def nestedA : NestedIntrinsic := ⟨"dp_quantile", [⟨"value", .DT_DOUBLE⟩], []⟩

/-- A nested DP intrinsic with two input tensors. -/
def nestedB : NestedIntrinsic :=
  ⟨"dp_sum", [⟨"value", .DT_DOUBLE⟩, ⟨"weight", .DT_DOUBLE⟩], []⟩

/-- A nested intrinsic whose resolved instance is not a DP aggregator under
`mixedEnv`. -/
def nestedBad : NestedIntrinsic := ⟨"bad", [⟨"value", .DT_DOUBLE⟩], []⟩

/-- A valid two-mechanism specification with epsilon 1/2 and delta 1/100. -/
def goodIntrinsic : Intrinsic :=
  ⟨[nestedA, nestedB], [⟨.DT_DOUBLE, 1/2⟩, ⟨.DT_DOUBLE, 1/100⟩]⟩

/-- The bundle built from `goodIntrinsic` under `okEnv` with threshold 1. -/
def goodBundle : DPTensorAggregatorBundle :=
  ⟨[⟨true, 0⟩, ⟨true, 0⟩], [1, 2], 1/4, 1/200, 0⟩

/-- A valid two-mechanism specification whose epsilon 1 reaches a threshold
of 1 (capped branch). -/
def capIntrinsic : Intrinsic :=
  ⟨[nestedA, nestedB], [⟨.DT_DOUBLE, 1⟩, ⟨.DT_DOUBLE, 0⟩]⟩

/-- The bundle built from `capIntrinsic` under `okEnv` with threshold 1: each
of the two mechanisms gets the full threshold epsilon 1. -/
def capBundle : DPTensorAggregatorBundle :=
  ⟨[⟨true, 0⟩, ⟨true, 0⟩], [1, 2], 1, 0, 0⟩

/-- A persisted state carrying a negative input counter. -/
def negState : DPTensorAggregatorBundleState := ⟨-5, ["", ""]⟩

/-- The bundle restored from `negState`: its counter is the negative persisted
value, copied verbatim. -/
def negBundle : DPTensorAggregatorBundle :=
  ⟨[⟨true, 1⟩, ⟨true, 1⟩], [1, 2], 1/4, 1/200, -5⟩

/-- A persisted state carrying input counter 7 and one blob per nested spec of
`goodIntrinsic`. -/
def sevenState : DPTensorAggregatorBundleState := ⟨7, ["", ""]⟩

/-- The bundle restored from `sevenState`. -/
def sevenBundle : DPTensorAggregatorBundle :=
  ⟨[⟨true, 1⟩, ⟨true, 1⟩], [1, 2], 1/4, 1/200, 7⟩

/-- A persisted state with only one serialized blob — fewer than the two
nested specs of `goodIntrinsic`. -/
def shortState : DPTensorAggregatorBundleState := ⟨0, [""]⟩

/-- A specification whose second nested intrinsic resolves to a non-DP
instance under `mixedEnv`. -/
def badIntrinsic : Intrinsic :=
  ⟨[nestedA, nestedBad], [⟨.DT_DOUBLE, 1/2⟩, ⟨.DT_DOUBLE, 1/100⟩]⟩

/-- C1: for every specification that passes validation (construction returns a
bundle), with n the number of nested specs and epsilon the scalar of the first
parameter tensor: if epsilon is below the threshold, the per-mechanism epsilon
computed by the factory equals epsilon / n, and if epsilon is at or above the
threshold it equals the threshold regardless of n.  The bundle stores a single
`epsilon_per_agg` scalar, so by construction one identical value is shared by
every nested mechanism. -/
theorem dp_bundle_C1 (env : Env) (T : ℚ) (intrinsic : Intrinsic)
    (st : Option DPTensorAggregatorBundleState) (b : DPTensorAggregatorBundle)
    (epsTensor deltaTensor : Tensor)
    (hp : intrinsic.parameters = [epsTensor, deltaTensor])
    (hok : CreateInternal env T intrinsic st = .ok b) :
    (epsTensor.scalar < T →
      b.epsilon_per_agg =
        epsTensor.scalar / (intrinsic.nested_intrinsics.length : ℚ)) ∧
    (T ≤ epsTensor.scalar → b.epsilon_per_agg = T) := by
  obtain ⟨e', d', hp', hne, hloop, hen, hdn, hep, hd0, hd1, hepa, hdpa, hni⟩ :=
    createInternal_ok_inv hok
  rw [hp] at hp'
  simp only [List.cons.injEq, and_true] at hp'
  obtain ⟨h1, h2⟩ := hp'
  subst h1
  constructor
  · intro hlt
    rw [hepa, if_pos hlt]
  · intro hge
    rw [hepa, if_neg (not_lt.mpr hge)]

/-- Witness for C1: the valid specification `goodIntrinsic` (two nested specs,
epsilon 1/2, threshold 1) is in the uncapped branch and each mechanism gets
epsilon 1/4. -/
theorem dp_bundle_C1_witness :
    (((⟨.DT_DOUBLE, 1/2⟩ : Tensor).scalar < 1 →
      goodBundle.epsilon_per_agg =
        (⟨.DT_DOUBLE, 1/2⟩ : Tensor).scalar /
          (goodIntrinsic.nested_intrinsics.length : ℚ)) ∧
     ((1 : ℚ) ≤ (⟨.DT_DOUBLE, 1/2⟩ : Tensor).scalar →
      goodBundle.epsilon_per_agg = 1)) :=
  dp_bundle_C1 okEnv 1 goodIntrinsic none goodBundle
    ⟨.DT_DOUBLE, 1/2⟩ ⟨.DT_DOUBLE, 1/100⟩ rfl
    (by norm_num [CreateInternal, resolveLoop, resolveOne, okEnv,
      goodIntrinsic, nestedA, nestedB, goodBundle, stateNumInputs,
      GetTypeKind])

/-- C2 counterexample: the claim says the summed per-mechanism epsilon never
exceeds the requested epsilon, the only allowed exception being an under-spend
in the capped branch.  At the concrete valid specification `capIntrinsic` (two
nested specs, requested epsilon 1, threshold 1) construction succeeds in the
capped branch and the summed per-mechanism epsilon is 2, which exceeds the
requested epsilon 1. -/
theorem dp_bundle_C2_counterexample :
    CreateInternal okEnv 1 capIntrinsic none = .ok capBundle ∧
    capIntrinsic.parameters = [⟨.DT_DOUBLE, 1⟩, ⟨.DT_DOUBLE, 0⟩] ∧
    ¬ ((capIntrinsic.nested_intrinsics.length : ℚ) *
        capBundle.epsilon_per_agg ≤ (⟨.DT_DOUBLE, 1⟩ : Tensor).scalar) := by
  refine ⟨?_, rfl, ?_⟩
  · norm_num [CreateInternal, resolveLoop, resolveOne, okEnv, capIntrinsic,
      nestedA, nestedB, capBundle, stateNumInputs, GetTypeKind]
  · norm_num [capIntrinsic, capBundle, nestedA, nestedB]

/-- C2 (amended): for every specification that passes validation, the summed
per-mechanism delta equals the requested delta exactly (so never exceeds it),
and in the uncapped branch the summed per-mechanism epsilon equals the
requested epsilon exactly; in the capped branch the summed per-mechanism
epsilon equals n times the threshold, which may fall short of or exceed the
requested epsilon. -/
theorem dp_bundle_C2_amended (env : Env) (T : ℚ) (intrinsic : Intrinsic)
    (st : Option DPTensorAggregatorBundleState) (b : DPTensorAggregatorBundle)
    (epsTensor deltaTensor : Tensor)
    (hp : intrinsic.parameters = [epsTensor, deltaTensor])
    (hok : CreateInternal env T intrinsic st = .ok b) :
    (intrinsic.nested_intrinsics.length : ℚ) * b.delta_per_agg =
      deltaTensor.scalar ∧
    (epsTensor.scalar < T →
      (intrinsic.nested_intrinsics.length : ℚ) * b.epsilon_per_agg =
        epsTensor.scalar) ∧
    (T ≤ epsTensor.scalar →
      (intrinsic.nested_intrinsics.length : ℚ) * b.epsilon_per_agg =
        (intrinsic.nested_intrinsics.length : ℚ) * T) := by
  obtain ⟨e', d', hp', hne, hloop, hen, hdn, hep, hd0, hd1, hepa, hdpa, hni⟩ :=
    createInternal_ok_inv hok
  rw [hp] at hp'
  simp only [List.cons.injEq, and_true] at hp'
  obtain ⟨h1, h2⟩ := hp'
  subst h1
  subst h2
  have hlen : intrinsic.nested_intrinsics.length ≠ 0 := by
    simpa [List.length_eq_zero] using hne
  have hn0 : (intrinsic.nested_intrinsics.length : ℚ) ≠ 0 :=
    Nat.cast_ne_zero.mpr hlen
  refine ⟨?_, ?_, ?_⟩
  · rw [hdpa, ← mul_div_assoc]
    exact mul_div_cancel_left₀ _ hn0
  · intro hlt
    rw [hepa, if_pos hlt, ← mul_div_assoc]
    exact mul_div_cancel_left₀ _ hn0
  · intro hge
    rw [hepa, if_neg (not_lt.mpr hge)]

/-- Witness for the amended C2 at `goodIntrinsic` (uncapped branch): the delta
total is the requested 1/100 and the epsilon total is the requested 1/2. -/
theorem dp_bundle_C2_amended_witness :
    ((goodIntrinsic.nested_intrinsics.length : ℚ) * goodBundle.delta_per_agg =
      (⟨.DT_DOUBLE, 1/100⟩ : Tensor).scalar ∧
     ((⟨.DT_DOUBLE, 1/2⟩ : Tensor).scalar < 1 →
      (goodIntrinsic.nested_intrinsics.length : ℚ) *
        goodBundle.epsilon_per_agg = (⟨.DT_DOUBLE, 1/2⟩ : Tensor).scalar) ∧
     ((1 : ℚ) ≤ (⟨.DT_DOUBLE, 1/2⟩ : Tensor).scalar →
      (goodIntrinsic.nested_intrinsics.length : ℚ) *
        goodBundle.epsilon_per_agg =
        (goodIntrinsic.nested_intrinsics.length : ℚ) * 1)) :=
  dp_bundle_C2_amended okEnv 1 goodIntrinsic none goodBundle
    ⟨.DT_DOUBLE, 1/2⟩ ⟨.DT_DOUBLE, 1/100⟩ rfl
    (by norm_num [CreateInternal, resolveLoop, resolveOne, okEnv,
      goodIntrinsic, nestedA, nestedB, goodBundle, stateNumInputs,
      GetTypeKind])

/-- C3: for every specification that passes validation, with n the number of
nested specs (n at least 1), the per-mechanism delta computed by the factory
equals delta / n exactly, for every n and in both epsilon branches (the
computation of `delta_per_agg` does not consult epsilon at all). -/
theorem dp_bundle_C3 (env : Env) (T : ℚ) (intrinsic : Intrinsic)
    (st : Option DPTensorAggregatorBundleState) (b : DPTensorAggregatorBundle)
    (epsTensor deltaTensor : Tensor)
    (hp : intrinsic.parameters = [epsTensor, deltaTensor])
    (hok : CreateInternal env T intrinsic st = .ok b) :
    1 ≤ intrinsic.nested_intrinsics.length ∧
    b.delta_per_agg =
      deltaTensor.scalar / (intrinsic.nested_intrinsics.length : ℚ) := by
  obtain ⟨e', d', hp', hne, hloop, hen, hdn, hep, hd0, hd1, hepa, hdpa, hni⟩ :=
    createInternal_ok_inv hok
  rw [hp] at hp'
  simp only [List.cons.injEq, and_true] at hp'
  obtain ⟨h1, h2⟩ := hp'
  subst h2
  exact ⟨List.length_pos.mpr hne, hdpa⟩

/-- Witness for C3: at `capIntrinsic` (capped epsilon branch, delta 0, two
nested specs) the per-mechanism delta is 0 / 2 = 0. -/
theorem dp_bundle_C3_witness :
    (1 ≤ capIntrinsic.nested_intrinsics.length ∧
     capBundle.delta_per_agg =
       (⟨.DT_DOUBLE, 0⟩ : Tensor).scalar /
         (capIntrinsic.nested_intrinsics.length : ℚ)) :=
  dp_bundle_C3 okEnv 1 capIntrinsic none capBundle
    ⟨.DT_DOUBLE, 1⟩ ⟨.DT_DOUBLE, 0⟩ rfl
    (by norm_num [CreateInternal, resolveLoop, resolveOne, okEnv,
      capIntrinsic, nestedA, nestedB, capBundle, stateNumInputs, GetTypeKind])

/-- C6: for every successful construction, the bundle's input counter is the
`num_inputs` value of the persisted state when one is supplied, and 0 when
none is supplied. -/
theorem dp_bundle_C6 (env : Env) (T : ℚ) (intrinsic : Intrinsic)
    (st : Option DPTensorAggregatorBundleState) (b : DPTensorAggregatorBundle)
    (hok : CreateInternal env T intrinsic st = .ok b) :
    (st = none → b.num_inputs = 0) ∧
    (∀ s, st = some s → b.num_inputs = s.num_inputs) := by
  obtain ⟨e', d', hp', hne, hloop, hen, hdn, hep, hd0, hd1, hepa, hdpa, hni⟩ :=
    createInternal_ok_inv hok
  constructor
  · intro h
    subst h
    simpa [stateNumInputs] using hni
  · intro s h
    subst h
    simpa [stateNumInputs] using hni

/-- Witness for C6: restoring `goodIntrinsic` from `sevenState` yields a
bundle whose counter is the persisted 7. -/
theorem dp_bundle_C6_witness :
    ((some sevenState = none → sevenBundle.num_inputs = 0) ∧
     (∀ s, some sevenState = some s → sevenBundle.num_inputs = s.num_inputs)) :=
  dp_bundle_C6 okEnv 1 goodIntrinsic (some sevenState) sevenBundle
    (by norm_num [CreateInternal, resolveLoop, resolveOne, okEnv,
      goodIntrinsic, nestedA, nestedB, sevenBundle, sevenState,
      stateNumInputs, GetTypeKind])

/-- C9 counterexample: the claim says construction never produces a bundle
with a negative counter even when the persisted state carries a negative
`num_inputs`.  Restoring `goodIntrinsic` from `negState` (persisted counter
-5) succeeds and the bundle's counter is -5, which is negative: the factory
copies the persisted value verbatim without clamping or validation. -/
theorem dp_bundle_C9_counterexample :
    CreateInternal okEnv 1 goodIntrinsic (some negState) = .ok negBundle ∧
    negBundle.num_inputs < 0 := by
  constructor
  · norm_num [CreateInternal, resolveLoop, resolveOne, okEnv, goodIntrinsic,
      nestedA, nestedB, negBundle, negState, stateNumInputs, GetTypeKind]
  · norm_num [negBundle]

/-- C9 (amended): the constructed bundle's counter equals the persisted
`num_inputs` verbatim (0 on fresh construction), so it is non-negative
whenever the supplied persisted state's counter is non-negative — but a
negative persisted value is copied through unchanged. -/
theorem dp_bundle_C9_amended (env : Env) (T : ℚ) (intrinsic : Intrinsic)
    (st : Option DPTensorAggregatorBundleState) (b : DPTensorAggregatorBundle)
    (hok : CreateInternal env T intrinsic st = .ok b)
    (hpos : ∀ s, st = some s → 0 ≤ s.num_inputs) :
    0 ≤ b.num_inputs := by
  obtain ⟨e', d', hp', hne, hloop, hen, hdn, hep, hd0, hd1, hepa, hdpa, hni⟩ :=
    createInternal_ok_inv hok
  cases st with
  | none =>
    rw [hni]
    simp [stateNumInputs]
  | some s =>
    rw [hni]
    simpa [stateNumInputs] using hpos s rfl

/-- Witness for the amended C9: restoring from `sevenState` (persisted counter
7, non-negative) yields a non-negative bundle counter. -/
theorem dp_bundle_C9_amended_witness : 0 ≤ sevenBundle.num_inputs :=
  dp_bundle_C9_amended okEnv 1 goodIntrinsic (some sevenState) sevenBundle
    (by norm_num [CreateInternal, resolveLoop, resolveOne, okEnv,
      goodIntrinsic, nestedA, nestedB, sevenBundle, sevenState,
      stateNumInputs, GetTypeKind])
    (by intro s hs; cases hs; norm_num [sevenState])

/-- A specification carrying no parameter tensors at all (parameter-count
defect). -/
def paramlessIntrinsic : Intrinsic := ⟨[nestedA], []⟩

/-- A specification with two simultaneous defects: its second nested spec
resolves to a non-DP instance under `mixedEnv`, and its parameter list has
one entry instead of two. -/
def multiDefectIntrinsic : Intrinsic :=
  ⟨[nestedA, nestedBad], [⟨.DT_DOUBLE, 5⟩]⟩

/-- C4: construction fails with an `INVALID_ARGUMENT` error and no bundle
whenever any listed defect holds — empty nested-spec list, an unresolvable
nested identifier, a resolved non-DP instance, a parameter count other than 2,
a non-numeric or non-positive epsilon, or a non-numeric, negative or
at-least-1 delta.  Construction is all-or-nothing by the shape of its result:
it returns either one bundle or an error, never a partial bundle.  The
environment hypothesis states that the external resolver also fails only with
`INVALID_ARGUMENT`, as the specification says of resolution failures, and the
well-formedness hypothesis keeps the per-index blob reads of a supplied
persisted state in range. -/
theorem dp_bundle_C4 (env : Env) (T : ℚ) (intrinsic : Intrinsic)
    (st : Option DPTensorAggregatorBundleState)
    (henv : EnvInvalidOnly env) (hwf : WFState intrinsic st)
    (hdefect :
      intrinsic.nested_intrinsics = [] ∨
      (∃ j nested s, intrinsic.nested_intrinsics.get? j = some nested ∧
        env.getAggregatorFactory nested.uri = .error s) ∨
      (∃ j nested a, intrinsic.nested_intrinsics.get? j = some nested ∧
        rawResolve env st nested j = some (.ok a) ∧ a.isDP = false) ∨
      intrinsic.parameters.length ≠ 2 ∨
      (∃ epsT dT, intrinsic.parameters = [epsT, dT] ∧
        (GetTypeKind epsT.dtype ≠ .kNumeric ∨ epsT.scalar ≤ 0 ∨
         GetTypeKind dT.dtype ≠ .kNumeric ∨ dT.scalar < 0 ∨
         1 ≤ dT.scalar))) :
    ∃ e, CreateInternal env T intrinsic st = .err e ∧
      e.toStatus.code = .INVALID_ARGUMENT := by
  cases hres : CreateInternal env T intrinsic st with
  | undef => exact absurd hres (createInternal_ne_undef hwf)
  | err e => exact ⟨e, rfl, createInternal_err_invalid henv hres⟩
  | ok b =>
    exfalso
    obtain ⟨e', d', hp', hne, hloop, hen, hdn, hep, hd0, hd1, hepa, hdpa, hni⟩ :=
      createInternal_ok_inv hres
    rcases hdefect with h | ⟨j, nested, s, hj, hf⟩ |
      ⟨j, nested, a, hj, hraw, hnot⟩ | h | ⟨epsT, dT, hpp, hbad⟩
    · exact hne h
    · obtain ⟨-, a, -, hro⟩ := resolveLoop_ok_get hloop j nested hj
      rw [Nat.zero_add] at hro
      obtain ⟨⟨u, hu⟩, -, -⟩ := resolveOne_ok_inv hro
      rw [hu] at hf
      exact Except.noConfusion hf
    · obtain ⟨-, a', -, hro⟩ := resolveLoop_ok_get hloop j nested hj
      rw [Nat.zero_add] at hro
      obtain ⟨-, hraw', hdp⟩ := resolveOne_ok_inv hro
      rw [hraw'] at hraw
      simp only [Option.some.injEq, Except.ok.injEq] at hraw
      subst hraw
      rw [hdp] at hnot
      exact Bool.noConfusion hnot
    · rw [hp'] at h
      exact h rfl
    · rw [hp'] at hpp
      simp only [List.cons.injEq, and_true] at hpp
      obtain ⟨hh1, hh2⟩ := hpp
      subst hh1
      subst hh2
      rcases hbad with hb | hb | hb | hb | hb
      · exact hb hen
      · exact absurd hep (not_lt.mpr hb)
      · exact hb hdn
      · exact absurd hd0 (not_le.mpr hb)
      · exact absurd hd1 (not_lt.mpr hb)

/-- Witness for C4: the parameterless specification (parameter-count defect)
fails construction with an `INVALID_ARGUMENT` error. -/
theorem dp_bundle_C4_witness :
    ∃ e, CreateInternal okEnv 1 paramlessIntrinsic none = .err e ∧
      e.toStatus.code = .INVALID_ARGUMENT :=
  dp_bundle_C4 okEnv 1 paramlessIntrinsic none
    ⟨fun uri s h => by simp [okEnv] at h,
     fun n s h => by simp [okEnv] at h,
     fun n blob s h => by simp [okEnv] at h⟩
    trivial
    (Or.inr (Or.inr (Or.inr (Or.inl (by norm_num [paramlessIntrinsic])))))

/-- C5: for every specification (with a well-formed optional persisted state)
construction reports exactly the first violated rule of the fixed section 4.1
check order, as computed by `specFirstViolation`, which is modelled from the
spec: construction errs with e iff the first violated rule is e, and returns a
bundle iff no rule is violated.  `CreateInternal` is a pure function of its
arguments, so the same specification yields the same error deterministically
across repeated runs. -/
theorem dp_bundle_C5 (env : Env) (T : ℚ) (intrinsic : Intrinsic)
    (st : Option DPTensorAggregatorBundleState) (hwf : WFState intrinsic st) :
    (∀ e, CreateInternal env T intrinsic st = .err e ↔
      specFirstViolation env intrinsic st = some e) ∧
    (specFirstViolation env intrinsic st = none ↔
      ∃ b, CreateInternal env T intrinsic st = .ok b) :=
  createInternal_agrees_spec hwf

/-- Witness for C5 at the two-defect specification `multiDefectIntrinsic`
(non-DP nested instance and wrong parameter count) under `mixedEnv`. -/
theorem dp_bundle_C5_witness :
    ((∀ e, CreateInternal mixedEnv 1 multiDefectIntrinsic none = .err e ↔
       specFirstViolation mixedEnv multiDefectIntrinsic none = some e) ∧
     (specFirstViolation mixedEnv multiDefectIntrinsic none = none ↔
       ∃ b, CreateInternal mixedEnv 1 multiDefectIntrinsic none = .ok b)) :=
  dp_bundle_C5 mixedEnv 1 multiDefectIntrinsic none trivial

/-- C7: for every successfully constructed bundle, the aggregator sequence and
the inputs-per-mechanism sequence both have the same length as the nested-spec
list; entries correspond index-wise to the nested specs (the aggregator at
index j is the one resolution produced for nested spec j), and the count at
index j equals the number of input value-streams declared by nested spec j. -/
theorem dp_bundle_C7 (env : Env) (T : ℚ) (intrinsic : Intrinsic)
    (st : Option DPTensorAggregatorBundleState) (b : DPTensorAggregatorBundle)
    (hok : CreateInternal env T intrinsic st = .ok b) :
    b.aggregators.length = intrinsic.nested_intrinsics.length ∧
    b.num_tensors_per_agg.length = intrinsic.nested_intrinsics.length ∧
    ∀ j nested, intrinsic.nested_intrinsics.get? j = some nested →
      b.num_tensors_per_agg.get? j = some nested.inputs.length ∧
      ∃ a, b.aggregators.get? j = some a ∧
        resolveOne env st nested j = .ok a := by
  obtain ⟨e', d', hp', hne, hloop, hen, hdn, hep, hd0, hd1, hepa, hdpa, hni⟩ :=
    createInternal_ok_inv hok
  have hlen := resolveLoop_ok_length hloop
  refine ⟨hlen.1, hlen.2, ?_⟩
  intro j nested hj
  have h := resolveLoop_ok_get hloop j nested hj
  rwa [Nat.zero_add] at h

/-- Witness for C7 at `goodIntrinsic`, index 1: the recorded count is the two
input streams of `nestedB` and the aggregator at index 1 is the instance that
resolution produced for `nestedB` at index 1. -/
theorem dp_bundle_C7_witness :
    goodBundle.num_tensors_per_agg.get? 1 = some nestedB.inputs.length ∧
    ∃ a, goodBundle.aggregators.get? 1 = some a ∧
      resolveOne okEnv none nestedB 1 = .ok a :=
  (dp_bundle_C7 okEnv 1 goodIntrinsic none goodBundle
    (by norm_num [CreateInternal, resolveLoop, resolveOne, okEnv,
      goodIntrinsic, nestedA, nestedB, goodBundle, stateNumInputs,
      GetTypeKind])).2.2 1 nestedB rfl

/-- C8: when the nested spec at index j is the first whose resolved instance
fails the DP-capability check (every earlier index resolves to a DP instance),
construction fails with the `notDP` error for that spec; its status is
`INVALID_ARGUMENT` and its message names the offending URI (as a suffix).  The
non-DP mechanism is never silently accepted: construction returns an error and
no bundle. -/
theorem dp_bundle_C8 (env : Env) (T : ℚ) (intrinsic : Intrinsic)
    (st : Option DPTensorAggregatorBundleState) (j : ℕ)
    (nested : NestedIntrinsic) (a : TensorAggregatorObj)
    (hj : intrinsic.nested_intrinsics.get? j = some nested)
    (hfirst : ∀ k nk, k < j → intrinsic.nested_intrinsics.get? k = some nk →
      ∃ a', resolveOne env st nk k = .ok a')
    (hfac : ∃ u, env.getAggregatorFactory nested.uri = .ok u)
    (hraw : rawResolve env st nested j = some (.ok a))
    (hnot : a.isDP = false) :
    CreateInternal env T intrinsic st = .err (.notDP nested.uri) ∧
    (BundleError.notDP nested.uri).toStatus.code = .INVALID_ARGUMENT ∧
    ∃ p, (BundleError.notDP nested.uri).toStatus.message =
      p ++ nested.uri := by
  have hone : resolveOne env st nested j = .err (.notDP nested.uri) :=
    resolveOne_notDP_of_raw hfac hraw hnot
  have hne : intrinsic.nested_intrinsics ≠ [] := by
    intro hcontra
    rw [hcontra] at hj
    simp at hj
  have hloop : resolveLoop env st intrinsic.nested_intrinsics 0 =
      .err (.notDP nested.uri) := by
    refine resolveLoop_err_of_first hj ?_ ?_
    · intro k nk hk hget
      simpa using hfirst k nk hk hget
    · simpa using hone
  refine ⟨createInternal_err_of_loop hne hloop, rfl, ?_⟩
  exact ⟨"DPTensorAggregatorBundleFactory::CreateInternal: Expected all nested intrinsics to be DPTensorAggregators, got ", rfl⟩

/-- Witness for C8: under `mixedEnv` the second nested spec of `badIntrinsic`
resolves to a non-DP instance and construction fails with the `notDP` error
naming "bad". -/
theorem dp_bundle_C8_witness :
    (CreateInternal mixedEnv 1 badIntrinsic none =
      .err (.notDP nestedBad.uri) ∧
     (BundleError.notDP nestedBad.uri).toStatus.code = .INVALID_ARGUMENT ∧
     ∃ p, (BundleError.notDP nestedBad.uri).toStatus.message =
       p ++ nestedBad.uri) :=
  dp_bundle_C8 mixedEnv 1 badIntrinsic none 1 nestedBad ⟨false, 0⟩
    rfl
    (by
      intro k nk hk hget
      have hk0 : k = 0 := by omega
      subst hk0
      simp only [badIntrinsic, List.get?] at hget
      cases hget
      exact ⟨⟨true, 0⟩, by decide⟩)
    ⟨(), rfl⟩
    (by simp [rawResolve, mixedEnv, nestedBad])
    rfl

/-- C10: when a persisted state is supplied, the factory reads the serialized
blob at index i for every nested spec index i with no count-mismatch
validation: whenever the persisted state carries at least one blob per nested
spec the per-index reads stay in range and construction is well defined (never
hits the undefined out-of-range proto access), while a persisted state with
fewer blobs than nested specs drives the loop into the out-of-range access
rather than any validation error, as the concrete `shortState` run shows. -/
theorem dp_bundle_C10 :
    (∀ (env : Env) (T : ℚ) (intrinsic : Intrinsic)
       (s : DPTensorAggregatorBundleState),
      intrinsic.nested_intrinsics.length ≤
        s.nested_serialized_states.length →
      CreateInternal env T intrinsic (some s) ≠ .undef) ∧
    CreateInternal okEnv 1 goodIntrinsic (some shortState) = .undef := by
  constructor
  · intro env T intrinsic s hle
    exact createInternal_ne_undef hle
  · norm_num [CreateInternal, resolveLoop, resolveOne, okEnv, goodIntrinsic,
      nestedA, nestedB, shortState, stateNumInputs, GetTypeKind]

/-- Witness for C10: `sevenState` carries one blob per nested spec of
`goodIntrinsic`, so restoring from it never reaches the undefined
out-of-range access. -/
theorem dp_bundle_C10_witness :
    goodIntrinsic.nested_intrinsics.length ≤
      sevenState.nested_serialized_states.length ∧
    CreateInternal okEnv 1 goodIntrinsic (some sevenState) ≠ .undef :=
  ⟨by norm_num [goodIntrinsic, sevenState, nestedA, nestedB],
   dp_bundle_C10.1 okEnv 1 goodIntrinsic sevenState
     (by norm_num [goodIntrinsic, sevenState, nestedA, nestedB])⟩

end Aggregation
end TFF
